import Mathlib

/-!
Shallow embedding of the go-polyglot-persistence service.

The repository implements a write-back caching and asynchronous persistence
pipeline: an acceptance path (`internal/api/handlers.go`) assigns identity,
writes a cache entry, publishes a work item to a durable queue, and responds;
a persistence worker (`internal/worker/worker.go`) consumes work items and
writes each one to the primary store (`internal/database/db.go`,
`InsertOrderIdempotent`) and then to the search projection
(`internal/queue/queue.go`, search `Client.IndexOrder`), acknowledging only
after both writes succeed.

The embedding models the four stores (cache, queue, primary table, search
projection) as Lean lists, each external call as a pure state transformer,
and every fallible external call with an explicit failure flag, so that each
control-flow path of the Go source corresponds to one branch of the Lean
definition.  Amounts are modelled as integers (the source stores them opaquely
and compares or sums them; no other arithmetic is performed), timestamps as
natural numbers.
-/

namespace Polyglot

/-- `models.Order`: id, product name, amount, creation timestamp. -/
structure Order where
  id : String
  productName : String
  amount : Int
  createdAt : Nat
deriving DecidableEq

/-- The Postgres `orders` table rows that carry an explicit id
(inserted through `InsertOrderIdempotent`). -/
abbrev Table := List Order

/-- The Elasticsearch `orders` index: documents keyed by document id. -/
abbrev Docs := List (String × Order)

/-- The Redis cache: serialized orders keyed by `order:{id}`. -/
abbrev CacheState := List (String × Order)

/-- Number of rows of the table whose id column equals `id`. -/
def countRows (t : Table) (id : String) : Nat :=
  (t.filter (fun r => r.id == id)).length

/-- `DB.InsertOrderIdempotent`: `INSERT INTO orders (id, product_name, amount,
created_at) VALUES ($1,$2,$3,$4) ON CONFLICT (id) DO NOTHING` — if a row with
the same id exists the statement is a no-op, otherwise the row is inserted. -/
def insertOrderIdempotent (t : Table) (o : Order) : Table :=
  if t.any (fun r => r.id == o.id) then t else t ++ [o]

/-- Number of documents of the projection whose document id equals `id`. -/
def countDocs (d : Docs) (id : String) : Nat :=
  (d.filter (fun p => p.1 == id)).length

/-- search `Client.IndexOrder`: `es.Index` with `WithDocumentID(order.ID)` —
an upsert that replaces any existing document with the same document id. -/
def indexOrder (d : Docs) (o : Order) : Docs :=
  d.filter (fun p => !(p.1 == o.id)) ++ [(o.id, o)]

/-- Point lookup of a projection document by document id. -/
def lookupDoc (d : Docs) (id : String) : Option Order :=
  (d.find? (fun p => p.1 == id)).map Prod.snd

/-- cache `Client.SetOrder`: `SET order:{id} = serialized order` with a fixed
TTL — replaces any existing entry under the same key. -/
def setOrder (c : CacheState) (o : Order) : CacheState :=
  c.filter (fun p => !(p.1 == o.id)) ++ [(o.id, o)]

/-- Point lookup of a cache entry by key. -/
def lookupCache (c : CacheState) (id : String) : Option Order :=
  (c.find? (fun p => p.1 == id)).map Prod.snd

/-! ### Persistence worker (`internal/worker/worker.go`, `Worker.process`) -/

/-- Observable events of one `Worker.process` call, in order: the primary
store write attempt and its result, the projection write attempt and its
result, and the terminal queue operation (`Ack` or `Nack`). -/
inductive Ev
  | pgWrite (ok : Bool)
  | esWrite (ok : Bool)
  | ack
  | nack
deriving DecidableEq

/-- How one `Worker.process` call terminated the delivery. -/
inductive ProcOutcome
  | acked
  | requeued
  | ackLost
deriving DecidableEq

/-- Failure injection for the three external calls made by `Worker.process`. -/
structure WorkerEnv where
  pgFails : Bool
  esFails : Bool
  ackFails : Bool
deriving DecidableEq

/-- The two downstream stores the worker writes to. -/
structure DownstreamState where
  table : Table
  docs : Docs
deriving DecidableEq

/-- `Worker.process`: step 1 writes to Postgres via `InsertOrderIdempotent`
(`Nack` and return on error); step 2 indexes into Elasticsearch via
`IndexOrder` (`Nack` and return on error); step 3 `Ack`s, removing the
message from the queue, only after both writes succeeded (an `Ack` failure is
logged and the function returns; the broker still holds the message). -/
def process (env : WorkerEnv) (s : DownstreamState) (o : Order) :
    DownstreamState × ProcOutcome × List Ev :=
  if env.pgFails then
    (s, .requeued, [.pgWrite false, .nack])
  else
    let s1 : DownstreamState := ⟨insertOrderIdempotent s.table o, s.docs⟩
    if env.esFails then
      (s1, .requeued, [.pgWrite true, .esWrite false, .nack])
    else
      let s2 : DownstreamState := ⟨s1.table, indexOrder s1.docs o⟩
      if env.ackFails then
        (s2, .ackLost, [.pgWrite true, .esWrite true])
      else
        (s2, .acked, [.pgWrite true, .esWrite true, .ack])

/-! ### HTTP handlers (`internal/api/handlers.go`) -/

/-- Failure modes of cache `Client.GetOrder` as seen by the handler: the key
is absent or expired (`ErrNotFound`), Redis is unreachable, or the stored
bytes fail to decode.  The handler in `GetOrder` branches only on
`err == nil`, so all three flow into the same fallback path. -/
inductive CacheErr
  | notFound
  | unreachable
  | decodeFailure
deriving DecidableEq

/-- Failure modes of `DB.GetOrderByID` as seen by the handler:
`sql.ErrNoRows` (the id does not exist) or any other error. -/
inductive DBErr
  | noRows
  | other
deriving DecidableEq

/-- The observable HTTP response of a handler. -/
inductive Response
  | okBody (cacheHeader : String) (body : Order)
  | accepted (orderId : String)
  | badRequest
  | notFound
  | serverError
deriving DecidableEq

/-- All four stores of the running system, as one world state. -/
structure World where
  cache : CacheState
  queue : List Order
  table : Table
  docs : Docs
deriving DecidableEq

/-- `Handler.CreateOrder`: decode the body (400 on failure); overwrite the
order's id with a fresh UUID and its creation time with the current UTC time;
attempt the cache write (failure is logged and ignored); attempt the queue
publish (on failure respond 500 and return); respond 202 with the assigned
id.  `cachePutFails` and `publishFails` inject failures of the two external
calls. -/
def createOrder (body : Option Order) (freshId : String) (now : Nat)
    (cachePutFails publishFails : Bool) (w : World) : Response × World :=
  match body with
  | none => (.badRequest, w)
  | some o0 =>
    let o : Order := { o0 with id := freshId, createdAt := now }
    let w1 : World := if cachePutFails then w else { w with cache := setOrder w.cache o }
    if publishFails then (.serverError, w1)
    else (.accepted o.id, { w1 with queue := w1.queue ++ [o] })

/-- cache `Client.GetOrder`: on an unreachable cache the call errors; a
missing key is `ErrNotFound`; otherwise the entry is returned. -/
def cacheGet (c : CacheState) (unreachable : Bool) (id : String) :
    Except CacheErr Order :=
  if unreachable then .error .unreachable
  else
    match lookupCache c id with
    | some o => .ok o
    | none => .error .notFound

/-- `DB.GetOrderByID`: `SELECT ... WHERE id = $1` — `sql.ErrNoRows` when no
row matches, any infrastructure failure is some other error. -/
def dbGetOrderByID (t : Table) (dbDown : Bool) (id : String) :
    Except DBErr Order :=
  if dbDown then .error .other
  else
    match t.find? (fun r => r.id == id) with
    | some o => .ok o
    | none => .error .noRows

/-- The branching of `Handler.GetOrder` after routing: empty id is a 400;
a cache result with `err == nil` is served directly with `X-Cache: HIT`;
on any cache error the handler falls through to the store — `sql.ErrNoRows`
is a 404, any other store error a 500, and a successful store read is served
with `X-Cache: MISS` together with a back-fill of the cache (the second
component carries the order to back-fill). -/
def getOrderCore (orderID : String) (cacheRes : Except CacheErr Order)
    (dbRes : Except DBErr Order) : Response × Option Order :=
  if orderID = "" then (.badRequest, none)
  else
    match cacheRes with
    | .ok o => (.okBody "HIT" o, none)
    | .error _ =>
      match dbRes with
      | .error .noRows => (.notFound, none)
      | .error .other => (.serverError, none)
      | .ok o => (.okBody "MISS" o, some o)

/-- Environment of one read request: whether the cache and the primary store
are reachable. -/
structure ReadEnv where
  cacheUnreachable : Bool
  dbDown : Bool
deriving DecidableEq

/-- `Handler.GetOrder` end to end: cache lookup, store fallback, and the
non-fatal cache back-fill on a successful store read. -/
def getOrder (id : String) (env : ReadEnv) (w : World) : Response × World :=
  let r := getOrderCore id (cacheGet w.cache env.cacheUnreachable id)
    (dbGetOrderByID w.table env.dbDown id)
  match r.2 with
  | some o =>
    (r.1, if env.cacheUnreachable then w else { w with cache := setOrder w.cache o })
  | none => (r.1, w)

/-! ### Bulk transaction (`DB.ProcessBulkOrder`) -/

/-- A row inserted by the bulk endpoint (`product_name`, `amount`; the id and
timestamp are store-assigned). -/
structure BulkRow where
  productName : String
  amount : Int
deriving DecidableEq

/-- `DB.ProcessBulkOrder`: begin a transaction; insert `(item1, 100.00)`;
if `item2 == "ERROR"` return an error — the deferred `tx.Rollback` discards
all pending work; otherwise insert `(item2, 50.00)` and commit, making both
pending rows visible at once.  The first component is the committed table,
the second the returned error. -/
def processBulkOrder (t : List BulkRow) (item1 item2 : String) :
    List BulkRow × Option String :=
  let pending : List BulkRow := [⟨item1, 100⟩]
  if item2 = "ERROR" then
    (t, some "simulated failure at step 2")
  else
    let pending2 := pending ++ [⟨item2, 50⟩]
    (t ++ pending2, none)

/-! ### Aggregate view (`daily_sales_mv`, `DB.GetSales`) -/

/-- A row of the `daily_sales_mv` materialized view: `sale_date` (as a day
number) and `total_revenue`. -/
structure DailySale where
  saleDate : Nat
  totalRevenue : Int
deriving DecidableEq

/-- The calendar date of an order: its creation timestamp truncated to the
day, matching `created_at::date`. -/
def dateOf (o : Order) : Nat := o.createdAt / 86400

/-- Sum of the amounts of all orders created on day `d`. -/
def dailyRevenue (orders : List Order) (d : Nat) : Int :=
  ((orders.filter (fun o => dateOf o == d)).map (fun o => o.amount)).sum

/-- Modelled from the spec: the SQL definition of `daily_sales_mv` lives in
`init.sql`, which is not among the provided sources.  Per the spec the view
is derived by grouping records by creation date, each row's revenue being the
sum of that date's record amounts as of refresh time, with a uniqueness
constraint on the date.  One row per distinct date of the refreshed table. -/
def refreshView (orders : List Order) : List DailySale :=
  ((orders.map dateOf).dedup).map (fun d => ⟨d, dailyRevenue orders d⟩)

/-- Insertion step of `ORDER BY sale_date DESC`: place `r` before the first
element whose date it dominates. -/
def insertByDateDesc (r : DailySale) : List DailySale → List DailySale
  | [] => [r]
  | x :: xs =>
    if x.saleDate ≤ r.saleDate then r :: x :: xs
    else x :: insertByDateDesc r xs

/-- `ORDER BY sale_date DESC` as an insertion sort. -/
def sortByDateDesc : List DailySale → List DailySale
  | [] => []
  | x :: xs => insertByDateDesc x (sortByDateDesc xs)

/-- `DB.GetSales`: `SELECT sale_date, total_revenue FROM daily_sales_mv
ORDER BY sale_date DESC LIMIT 30`. -/
def getSales (mv : List DailySale) : List DailySale :=
  (sortByDateDesc mv).take 30

/-! ### Basic store lemmas -/

lemma countRows_eq_zero_iff (t : Table) (id : String) :
    countRows t id = 0 ↔ t.any (fun r => r.id == id) = false := by
  simp [countRows, List.length_eq_zero, List.filter_eq_nil_iff, List.any_eq_false]

lemma filter_eq_nil_of_countRows_eq_zero {t : Table} {id : String}
    (h : countRows t id = 0) : t.filter (fun r => r.id == id) = [] := by
  simpa [countRows, List.length_eq_zero] using h

lemma insertOrderIdempotent_fresh {t : Table} {o : Order}
    (h : countRows t o.id = 0) : insertOrderIdempotent t o = t ++ [o] := by
  simp [insertOrderIdempotent, (countRows_eq_zero_iff t o.id).mp h]

lemma insertOrderIdempotent_present {t : Table} {o : Order}
    (h : o ∈ t) : insertOrderIdempotent t o = t := by
  have : t.any (fun r => r.id == o.id) = true :=
    List.any_eq_true.mpr ⟨o, h, by simp⟩
  simp [insertOrderIdempotent, this]

lemma countDocs_indexOrder (d : Docs) (o : Order) :
    countDocs (indexOrder d o) o.id = 1 := by
  simp [countDocs, indexOrder, List.filter_append, List.filter_filter]

lemma lookupDoc_indexOrder (d : Docs) (o : Order) :
    lookupDoc (indexOrder d o) o.id = some o := by
  have hnone : (d.filter (fun p => !(p.1 == o.id))).find?
      (fun p => p.1 == o.id) = none := by
    rw [List.find?_eq_none]
    intro x hx
    have := List.of_mem_filter hx
    simpa using this
  simp [lookupDoc, indexOrder, List.find?_append, hnone]

lemma lookupCache_setOrder (c : CacheState) (o : Order) :
    lookupCache (setOrder c o) o.id = some o := by
  have hnone : (c.filter (fun p => !(p.1 == o.id))).find?
      (fun p => p.1 == o.id) = none := by
    rw [List.find?_eq_none]
    intro x hx
    have := List.of_mem_filter hx
    simpa using this
  simp [lookupCache, setOrder, List.find?_append, hnone]

/-! ### Claim theorems -/

/-- C3: invoking `InsertOrderIdempotent` twice with the same id and
attributes leaves exactly one row, identical to the result of invoking it
once; invoking the projection upsert `IndexOrder` twice with the same id
leaves exactly one document reflecting the latest payload. -/
theorem downstream_writes_idempotent (t : Table) (d : Docs) (o o' : Order)
    (hfresh : countRows t o.id = 0) (hid : o'.id = o.id) :
    insertOrderIdempotent (insertOrderIdempotent t o) o =
      insertOrderIdempotent t o ∧
    countRows (insertOrderIdempotent (insertOrderIdempotent t o) o) o.id = 1 ∧
    countDocs (indexOrder (indexOrder d o) o') o.id = 1 ∧
    lookupDoc (indexOrder (indexOrder d o) o') o.id = some o' := by
  have h1 : insertOrderIdempotent t o = t ++ [o] :=
    insertOrderIdempotent_fresh hfresh
  have h2 : insertOrderIdempotent (t ++ [o]) o = t ++ [o] :=
    insertOrderIdempotent_present (by simp)
  refine ⟨by rw [h1, h2], ?_, ?_, ?_⟩
  · rw [h1, h2]
    simp [countRows, List.filter_append,
      filter_eq_nil_of_countRows_eq_zero hfresh]
  · rw [← hid]
    exact countDocs_indexOrder _ o'
  · rw [← hid]
    exact lookupDoc_indexOrder _ o'

/-- Witness for C3 at a concrete table, projection and pair of payloads. -/
theorem downstream_writes_idempotent_witness :
    insertOrderIdempotent
        (insertOrderIdempotent [] ⟨"a", "Laptop", 1299, 0⟩)
        ⟨"a", "Laptop", 1299, 0⟩ =
      insertOrderIdempotent [] ⟨"a", "Laptop", 1299, 0⟩ ∧
    countRows (insertOrderIdempotent
        (insertOrderIdempotent [] ⟨"a", "Laptop", 1299, 0⟩)
        ⟨"a", "Laptop", 1299, 0⟩) "a" = 1 ∧
    countDocs (indexOrder (indexOrder [] ⟨"a", "Laptop", 1299, 0⟩)
        ⟨"a", "Mouse", 49, 7⟩) "a" = 1 ∧
    lookupDoc (indexOrder (indexOrder [] ⟨"a", "Laptop", 1299, 0⟩)
        ⟨"a", "Mouse", 49, 7⟩) "a" = some ⟨"a", "Mouse", 49, 7⟩ :=
  downstream_writes_idempotent [] [] ⟨"a", "Laptop", 1299, 0⟩
    ⟨"a", "Mouse", 49, 7⟩ (by decide) (by decide)

/-- C2: in every `Worker.process` run, the projection write is attempted only
after the primary write succeeded (every projection-write event is preceded
by a successful primary-write event); the item is acknowledged exactly when
both writes and the acknowledgment call succeed, and every acknowledgment is
preceded by both successful writes; and a failure of either write requeues
the item (`Nack`) and never acknowledges it. -/
theorem worker_commit_discipline (env : WorkerEnv) (s : DownstreamState)
    (o : Order) :
    (∀ b, Ev.esWrite b ∈ (process env s o).2.2 →
      [Ev.pgWrite true, Ev.esWrite b].Sublist (process env s o).2.2) ∧
    (Ev.ack ∈ (process env s o).2.2 ↔
      env.pgFails = false ∧ env.esFails = false ∧ env.ackFails = false) ∧
    (Ev.ack ∈ (process env s o).2.2 →
      [Ev.pgWrite true, Ev.esWrite true, Ev.ack].Sublist (process env s o).2.2) ∧
    ((env.pgFails = true ∨ env.esFails = true) →
      (process env s o).2.1 = ProcOutcome.requeued ∧
      Ev.nack ∈ (process env s o).2.2 ∧ Ev.ack ∉ (process env s o).2.2) := by
  obtain ⟨pg, es, ak⟩ := env
  cases pg <;> cases es <;> cases ak <;> simp [process]

/-- C1: if the projection write fails after the primary write succeeds, the
item is requeued, and reprocessing it succeeds with exactly one primary row
and exactly one projection document for the record's id. -/
theorem requeue_safety (s : DownstreamState) (o : Order)
    (hrow : countRows s.table o.id = 0) (_hdoc : countDocs s.docs o.id = 0) :
    (process ⟨false, true, false⟩ s o).2.1 = ProcOutcome.requeued ∧
    (process ⟨false, false, false⟩ (process ⟨false, true, false⟩ s o).1 o).2.1 =
      ProcOutcome.acked ∧
    countRows (process ⟨false, false, false⟩
      (process ⟨false, true, false⟩ s o).1 o).1.table o.id = 1 ∧
    countDocs (process ⟨false, false, false⟩
      (process ⟨false, true, false⟩ s o).1 o).1.docs o.id = 1 := by
  have h1 : (process ⟨false, true, false⟩ s o).1 =
      ⟨s.table ++ [o], s.docs⟩ := by
    simp [process, insertOrderIdempotent_fresh hrow]
  have h2 : insertOrderIdempotent (s.table ++ [o]) o = s.table ++ [o] :=
    insertOrderIdempotent_present (by simp)
  refine ⟨by simp [process], ?_, ?_, ?_⟩
  · rw [h1]; simp [process, h2]
  · rw [h1]
    simp [process, h2, countRows, List.filter_append,
      filter_eq_nil_of_countRows_eq_zero hrow]
  · rw [h1]
    simp [process, h2]
    exact countDocs_indexOrder s.docs o

/-- Witness for C1 at the empty downstream state and a concrete order. -/
theorem requeue_safety_witness :
    (process ⟨false, true, false⟩ ⟨[], []⟩ ⟨"a", "Laptop", 1299, 0⟩).2.1 =
      ProcOutcome.requeued ∧
    (process ⟨false, false, false⟩
      (process ⟨false, true, false⟩ ⟨[], []⟩ ⟨"a", "Laptop", 1299, 0⟩).1
      ⟨"a", "Laptop", 1299, 0⟩).2.1 = ProcOutcome.acked ∧
    countRows (process ⟨false, false, false⟩
      (process ⟨false, true, false⟩ ⟨[], []⟩ ⟨"a", "Laptop", 1299, 0⟩).1
      ⟨"a", "Laptop", 1299, 0⟩).1.table "a" = 1 ∧
    countDocs (process ⟨false, false, false⟩
      (process ⟨false, true, false⟩ ⟨[], []⟩ ⟨"a", "Laptop", 1299, 0⟩).1
      ⟨"a", "Laptop", 1299, 0⟩).1.docs "a" = 1 :=
  requeue_safety ⟨[], []⟩ ⟨"a", "Laptop", 1299, 0⟩ (by decide) (by decide)

/-- C5: on a read whose cache lookup fails (for any reason), a store result
of `sql.ErrNoRows` yields the not-found response, any other store failure
yields the server-error response, and the two responses are distinct. -/
theorem notfound_vs_infra_distinct (id : String) (e : CacheErr)
    (h : id ≠ "") :
    (getOrderCore id (.error e) (.error .noRows)).1 = Response.notFound ∧
    (getOrderCore id (.error e) (.error .other)).1 = Response.serverError ∧
    Response.notFound ≠ Response.serverError := by
  refine ⟨by simp [getOrderCore, h], by simp [getOrderCore, h], by simp⟩

/-- Witness for C5 at a concrete id and cache error. -/
theorem notfound_vs_infra_distinct_witness :
    (getOrderCore "a" (.error .unreachable) (.error .noRows)).1 =
      Response.notFound ∧
    (getOrderCore "a" (.error .unreachable) (.error .other)).1 =
      Response.serverError ∧
    Response.notFound ≠ Response.serverError :=
  notfound_vs_infra_distinct "a" .unreachable (by decide)

/-- C7: every cache-get failure (missing key, unreachable cache, undecodable
entry) produces exactly the response and back-fill of a cache miss, and when
the store read succeeds the caller gets the record served from the store,
never an error caused by the cache. -/
theorem cache_failure_is_miss (id : String) (e : CacheErr)
    (dbRes : Except DBErr Order) (o : Order) :
    getOrderCore id (.error e) dbRes =
      getOrderCore id (.error .notFound) dbRes ∧
    (getOrderCore id (.error e) (.ok o)).1 =
      (if id = "" then Response.badRequest else Response.okBody "MISS" o) := by
  constructor
  · rfl
  · by_cases hid : id = "" <;> simp [getOrderCore, hid]

/-- C10: on a successful create, the response, the enqueued work item, and
the cached entry all carry the server-assigned id and timestamp, with the
body's name and amount, regardless of any id or creation time supplied by
the client. -/
theorem server_assigned_identity (o0 : Order) (freshId : String) (now : Nat)
    (cpf : Bool) (w : World) :
    (createOrder (some o0) freshId now cpf false w).1 =
      Response.accepted freshId ∧
    (createOrder (some o0) freshId now cpf false w).2.queue =
      w.queue ++ [⟨freshId, o0.productName, o0.amount, now⟩] ∧
    lookupCache (createOrder (some o0) freshId now false false w).2.cache
      freshId = some ⟨freshId, o0.productName, o0.amount, now⟩ := by
  refine ⟨?_, ?_, ?_⟩
  · cases cpf <;> rfl
  · cases cpf <;> rfl
  · exact lookupCache_setOrder w.cache ⟨freshId, o0.productName, o0.amount, now⟩

/-- C4 counterexample: with a reachable cache, a create whose queue publish
fails returns a server error, yet a cache entry for the assigned id remains
in the cache afterwards — a record of the failed attempt persists. -/
theorem fatal_accept_cex :
    (createOrder (some ⟨"client-id", "Laptop", 1299, 99⟩) "id1" 5 false true
      ⟨[], [], [], []⟩).1 = Response.serverError ∧
    lookupCache (createOrder (some ⟨"client-id", "Laptop", 1299, 99⟩) "id1" 5
      false true ⟨[], [], [], []⟩).2.cache "id1" =
      some ⟨"id1", "Laptop", 1299, 5⟩ := by decide

/-- C4 amended: on queue publish failure the caller receives a server error
and the queue, primary store and projection are unchanged — no queue message,
row or document for the assigned id is added; the cache entry written before
the publish attempt, however, remains whenever the cache put succeeded. -/
theorem fatal_accept_no_durable_effect (o0 : Order) (freshId : String)
    (now : Nat) (cpf : Bool) (w : World) :
    (createOrder (some o0) freshId now cpf true w).1 = Response.serverError ∧
    (createOrder (some o0) freshId now cpf true w).2.queue = w.queue ∧
    (createOrder (some o0) freshId now cpf true w).2.table = w.table ∧
    (createOrder (some o0) freshId now cpf true w).2.docs = w.docs ∧
    (cpf = true →
      (createOrder (some o0) freshId now cpf true w).2.cache = w.cache) ∧
    (cpf = false →
      lookupCache (createOrder (some o0) freshId now cpf true w).2.cache
        freshId = some ⟨freshId, o0.productName, o0.amount, now⟩) := by
  cases cpf <;>
    simp [createOrder, lookupCache_setOrder w.cache
      ⟨freshId, o0.productName, o0.amount, now⟩]

/-- C6 counterexample: a create whose (non-fatal) cache put fails still
returns the accepted response, but an immediate read of the assigned id,
before any worker processing, is a not-found response rather than a cache
hit. -/
theorem read_your_write_cex :
    (createOrder (some ⟨"x", "Laptop", 1299, 0⟩) "id1" 5 true false
      ⟨[], [], [], []⟩).1 = Response.accepted "id1" ∧
    (getOrder "id1" ⟨false, false⟩
      (createOrder (some ⟨"x", "Laptop", 1299, 0⟩) "id1" 5 true false
        ⟨[], [], [], []⟩).2).1 = Response.notFound := by decide

/-- C6 amended: when the cache put during the create succeeds and the read
reaches the cache, a read of the assigned id immediately after a successful
create returns a cache hit whose name and amount match the created record,
even though no worker has run. -/
theorem read_your_write (o0 : Order) (freshId : String) (now : Nat)
    (w : World) (hid : freshId ≠ "") :
    (createOrder (some o0) freshId now false false w).1 =
      Response.accepted freshId ∧
    (getOrder freshId ⟨false, false⟩
      (createOrder (some o0) freshId now false false w).2).1 =
      Response.okBody "HIT" ⟨freshId, o0.productName, o0.amount, now⟩ := by
  refine ⟨rfl, ?_⟩
  simp [createOrder, getOrder, cacheGet, getOrderCore, hid,
    lookupCache_setOrder w.cache ⟨freshId, o0.productName, o0.amount, now⟩]

/-- Witness for C6 (amended) at a concrete create followed by a read. -/
theorem read_your_write_witness :
    (createOrder (some ⟨"x", "Laptop", 1299, 0⟩) "id1" 5 false false
      ⟨[], [], [], []⟩).1 = Response.accepted "id1" ∧
    (getOrder "id1" ⟨false, false⟩
      (createOrder (some ⟨"x", "Laptop", 1299, 0⟩) "id1" 5 false false
        ⟨[], [], [], []⟩).2).1 =
      Response.okBody "HIT" ⟨"id1", "Laptop", 1299, 5⟩ :=
  read_your_write ⟨"x", "Laptop", 1299, 0⟩ "id1" 5 ⟨[], [], [], []⟩
    (by decide)

/-- C8: a bulk write whose second step is forced to fail (`item_2 ==
"ERROR"`) commits no row from either step and returns the error; a bulk
write where both steps succeed commits exactly the two rows
`(item_1, 100.00)` and `(item_2, 50.00)`. -/
theorem bulk_transaction_atomicity (t : List BulkRow) (i1 i2 : String)
    (h : i2 ≠ "ERROR") :
    (processBulkOrder t i1 "ERROR").1 = t ∧
    (processBulkOrder t i1 "ERROR").2 = some "simulated failure at step 2" ∧
    (processBulkOrder t i1 i2).1 = t ++ [⟨i1, 100⟩, ⟨i2, 50⟩] ∧
    (processBulkOrder t i1 i2).2 = none := by
  simp [processBulkOrder, h]

/-- Witness for C8 at a concrete table and item pair. -/
theorem bulk_transaction_atomicity_witness :
    (processBulkOrder [] "Laptop" "ERROR").1 = [] ∧
    (processBulkOrder [] "Laptop" "ERROR").2 =
      some "simulated failure at step 2" ∧
    (processBulkOrder [] "Laptop" "Mouse").1 =
      [⟨"Laptop", 100⟩, ⟨"Mouse", 50⟩] ∧
    (processBulkOrder [] "Laptop" "Mouse").2 = none :=
  bulk_transaction_atomicity [] "Laptop" "Mouse" (by decide)

/-! ### Sortedness of the dashboard query -/

lemma mem_insertByDateDesc {a r : DailySale} : ∀ {l : List DailySale},
    a ∈ insertByDateDesc r l ↔ a = r ∨ a ∈ l := by
  intro l
  induction l with
  | nil => simp [insertByDateDesc]
  | cons x xs ih =>
    rw [insertByDateDesc]
    by_cases hx : x.saleDate ≤ r.saleDate
    · simp [if_pos hx, List.mem_cons]
    · simp only [if_neg hx, List.mem_cons, ih]
      tauto

lemma pairwise_insertByDateDesc {l : List DailySale} (r : DailySale)
    (h : l.Pairwise (fun a b => b.saleDate ≤ a.saleDate)) :
    (insertByDateDesc r l).Pairwise (fun a b => b.saleDate ≤ a.saleDate) := by
  induction l with
  | nil => simp [insertByDateDesc]
  | cons x xs ih =>
    rw [insertByDateDesc]
    by_cases hx : x.saleDate ≤ r.saleDate
    · rw [if_pos hx]
      refine List.Pairwise.cons ?_ h
      intro b hb
      rcases List.mem_cons.mp hb with rfl | hb
      · exact hx
      · exact le_trans (List.rel_of_pairwise_cons h hb) hx
    · rw [if_neg hx]
      obtain ⟨hxall, hxs⟩ := List.pairwise_cons.mp h
      refine List.pairwise_cons.mpr ⟨?_, ih hxs⟩
      intro b hb
      rcases mem_insertByDateDesc.mp hb with rfl | hb
      · exact le_of_not_le hx
      · exact hxall b hb

lemma mem_sortByDateDesc {a : DailySale} : ∀ {l : List DailySale},
    a ∈ sortByDateDesc l ↔ a ∈ l := by
  intro l
  induction l with
  | nil => simp [sortByDateDesc]
  | cons x xs ih =>
    rw [sortByDateDesc]
    simp [mem_insertByDateDesc, ih]

lemma pairwise_sortByDateDesc : ∀ l : List DailySale,
    (sortByDateDesc l).Pairwise (fun a b => b.saleDate ≤ a.saleDate) := by
  intro l
  induction l with
  | nil => simp [sortByDateDesc]
  | cons x xs ih => exact pairwise_insertByDateDesc x ih

/-- C9: the dashboard query over the refreshed aggregate view returns at most
30 rows, ordered by date descending (most recent first), each row's revenue
equal to the sum of the record amounts of that date as of the refresh. -/
theorem aggregate_view_read (orders : List Order) :
    (getSales (refreshView orders)).length ≤ 30 ∧
    (getSales (refreshView orders)).Pairwise
      (fun a b => b.saleDate ≤ a.saleDate) ∧
    ∀ r ∈ getSales (refreshView orders),
      r.totalRevenue = dailyRevenue orders r.saleDate := by
  refine ⟨?_, ?_, ?_⟩
  · simp [getSales]
  · exact List.Pairwise.sublist (List.take_sublist 30 _)
      (pairwise_sortByDateDesc (refreshView orders))
  · intro r hr
    have h1 : r ∈ sortByDateDesc (refreshView orders) :=
      (List.take_sublist 30 _).subset hr
    have h2 : r ∈ refreshView orders := mem_sortByDateDesc.mp h1
    obtain ⟨dd, _, rfl⟩ := List.mem_map.mp h2
    rfl

end Polyglot
